import Mathlib

/-!
# Verification of the CloudPrivateIPConfig reconciler

A shallow embedding, in Lean 4, of the CloudPrivateIPConfig (CPIC) controller of
the cloud-network-config-controller repository, together with proofs about its
sync state machine.

The embedding follows `pkg/controller/cloudprivateipconfig/cloudprivateipconfig_controller.go`
(the revision whose `SyncHandler` drives `AssignPrivateIP`/`ReleasePrivateIP`/`WaitForResponse`
through an opaque request handle), the repository's `FakeCloudProvider` (the
`package cloudprovider` document staged in
`pkg/admissioncontroller/cloudprivateipconfig/cloudprivateipconfig_admission_controller.go`)
for the cloud the controller tests run against, and `pkg/cloudprovider/aws.go`
for the AWS adapter.

Modelling conventions:
* Kubernetes `metav1.Condition` is embedded without `LastTransitionTime` (the Go
  code stamps `metav1.Now()`, a wall-clock value none of the verified properties
  mention).
* Error messages built with `fmt.Errorf` interpolate dynamic error text; the
  embedding keeps the static message template, which is all the properties see.
* The cluster API (a fake clientset in the controller's test harness) never
  fails writes, so `UpdateStatus`/`Update` are embedded as always-succeeding
  persists; `retry.RetryOnConflict` around them is the identity.
* Go runtime panics (nil-pointer dereference, out-of-range slice index) are
  embedded as a `panicked` flag on the sync outcome: the sync stops at the
  panic point with the writes and cloud requests issued so far.
* Each sync records its cloud calls and their results as an ordered `events`
  list; the ordering and holder properties of claim C1 are stated over that
  call sequence (the fake provider itself keeps no state).
-/

/-- The `metav1.ConditionStatus` values used by the controller. -/
inductive ConditionStatus
  | conditionTrue
  | conditionFalse
  | conditionUnknown
deriving DecidableEq, Repr

/-- Embedding of `metav1.Condition` (without `LastTransitionTime`, see module header). -/
structure Condition where
  condType : String
  status : ConditionStatus
  observedGeneration : Int
  reason : String
  message : String
deriving DecidableEq, Repr

/-- Embedding of `cloudnetworkv1.CloudPrivateIPConfigSpec`. -/
structure CloudPrivateIPConfigSpec where
  node : String
deriving DecidableEq, Repr

/-- Embedding of `cloudnetworkv1.CloudPrivateIPConfigStatus`. -/
structure CloudPrivateIPConfigStatus where
  node : String
  conditions : List Condition
deriving DecidableEq, Repr

/-- Embedding of a `cloudnetworkv1.CloudPrivateIPConfig` object. The object's
name is the IP literal; `deletionTimestampSet` embeds
`!GetDeletionTimestamp().IsZero()`. -/
structure CloudPrivateIPConfig where
  name : String
  deletionTimestampSet : Bool
  finalizers : List String
  spec : CloudPrivateIPConfigSpec
  status : CloudPrivateIPConfigStatus
deriving DecidableEq, Repr

/-- The finalizer literal from the controller source. -/
def cloudPrivateIPConfigFinalizer : String :=
  "cloudprivateipconfig.cloud.network.openshift.io/finalizer"

/-- `cloudResponseReasonPending` from the controller source. -/
def cloudResponseReasonPending : String := "CloudResponsePending"

/-- `cloudResponseReasonError` from the controller source. -/
def cloudResponseReasonError : String := "CloudResponseError"

/-- `cloudResponseReasonSuccess` from the controller source. -/
def cloudResponseReasonSuccess : String := "CloudResponseSuccess"

/-- `string(cloudnetworkv1.Assigned)`, the single condition type the controller writes. -/
def assignedConditionType : String := "Assigned"

/-- `controllerutil.ContainsFinalizer` specialized to the controller's finalizer. -/
def containsFinalizer (c : CloudPrivateIPConfig) : Bool :=
  c.finalizers.contains cloudPrivateIPConfigFinalizer

/-- `controllerutil.AddFinalizer`: appends the finalizer (the controller only
calls it after a `ContainsFinalizer` check, so the duplicate guard is moot). -/
def addFinalizer (c : CloudPrivateIPConfig) : CloudPrivateIPConfig :=
  { c with finalizers := c.finalizers ++ [cloudPrivateIPConfigFinalizer] }

/-- `controllerutil.RemoveFinalizer`: removes every occurrence of the finalizer. -/
def removeFinalizer (c : CloudPrivateIPConfig) : CloudPrivateIPConfig :=
  { c with finalizers := c.finalizers.filter (fun f => f ≠ cloudPrivateIPConfigFinalizer) }

/-- Builds the single status condition exactly as each write site of
`SyncHandler` does (the condition type is always `Assigned`). -/
def mkCondition (st : ConditionStatus) (gen : Int) (reason msg : String) : Condition :=
  ⟨assignedConditionType, st, gen, reason, msg⟩

/-- `computeOp` from the controller source: decides `(nodeToAdd, nodeToDel)`
from the object state. Returns `none` when the Go code would panic by indexing
`Status.Conditions[0]` on an empty slice (only possible when
`Status.Node ≠ ""`, `Spec.Node = Status.Node` and no condition exists). -/
def computeOp (c : CloudPrivateIPConfig) : Option (String × String) :=
  -- Delete if the deletion timestamp is set and we still have our finalizer listed
  if c.deletionTimestampSet && containsFinalizer c then
    some ("", c.status.node)
  -- Update if status and spec are different
  else if c.spec.node ≠ c.status.node then
    some (c.spec.node, c.status.node)
  -- Add if the status is un-assigned or if the status is marked failed
  -- (the Go disjunction short-circuits, so Conditions[0] is only read when
  -- Status.Node is non-empty)
  else if c.status.node = "" then
    some (c.spec.node, "")
  else
    match c.status.conditions.head? with
    | none => none
    | some cond =>
      if cond.status ≠ ConditionStatus.conditionTrue then some (c.spec.node, "")
      else some ("", "")

/-- Outcome of the fake provider's `AssignPrivateIP` as the controller
distinguishes it: `alreadyExisting` is the `AlreadyExistingIPError` sentinel,
`failed` any other error, `dispatched` the nil-error return (request handed to
the cloud). -/
inductive AssignOutcome
  | dispatched
  | alreadyExisting
  | failed
deriving DecidableEq, Repr

/-- The repository's `FakeCloudProvider` (the `package cloudprovider` document
staged in `pkg/admissioncontroller/cloudprivateipconfig/cloudprivateipconfig_admission_controller.go`,
constructed in the controller test via `NewFakeCloudProvider`): four mock-error
flags and no other state. The fifth field `mockErrorOnGetNodeSubnet` only
drives `GetNodeSubnet`, which `SyncHandler` never calls, and is omitted. -/
structure FakeCloud where
  mockErrorOnAssign : Bool
  mockErrorOnAssignWithExistingIPCondition : Bool
  mockErrorOnRelease : Bool
  mockErrorOnWait : Bool
deriving DecidableEq, Repr

/-- `FakeCloudProvider.AssignPrivateIP`: returns `AlreadyExistingIPError` when
both mock assign flags are set, a generic error when only `mockErrorOnAssign`
is, and nil otherwise. It ignores its ip/node arguments and mutates nothing. -/
def fakeAssign (cl : FakeCloud) : AssignOutcome :=
  if cl.mockErrorOnAssign then
    if cl.mockErrorOnAssignWithExistingIPCondition then AssignOutcome.alreadyExisting
    else AssignOutcome.failed
  else AssignOutcome.dispatched

/-- `FakeCloudProvider.ReleasePrivateIP`: fails iff `mockErrorOnRelease`;
ignores its arguments and mutates nothing. `true` is the nil-error return. -/
def fakeRelease (cl : FakeCloud) : Bool := !cl.mockErrorOnRelease

/-- `FakeCloudProvider.WaitForResponse`: fails iff `mockErrorOnWait`. -/
def fakeWait (cl : FakeCloud) : Bool := !cl.mockErrorOnWait

/-- A cloud API interaction performed by one sync, in order. -/
inductive CloudEvent
  | releaseReq (node : String) (ok : Bool)
  | assignReq (node : String) (outcome : AssignOutcome)
  | waitResp (ok : Bool)
deriving DecidableEq, Repr

/-- A write persisted to the cluster API during one sync: either
`UpdateStatus` (a status subresource write) or `Update` (an object write, which
the controller only uses to change the finalizer list). -/
inductive ClusterWrite
  | statusWrite (s : CloudPrivateIPConfigStatus)
  | objectWrite (finalizers : List String)
deriving DecidableEq, Repr

/-- Outcome of one `SyncHandler` invocation: the final persisted object, whether
the sync returned a non-nil error (requeue), whether it hit a Go runtime panic,
and the ordered cluster writes and cloud events it performed. -/
structure SyncOut where
  obj : CloudPrivateIPConfig
  retErr : Bool
  panicked : Bool
  writes : List ClusterWrite
  events : List CloudEvent
deriving DecidableEq, Repr

/-- Internal threading state of one sync: the recursively-updated object
(`cloudPrivateIPConfig` in the Go code) and the writes and cloud events so
far. The cloud is a read-only client, passed separately. -/
structure SyncCtx where
  obj : CloudPrivateIPConfig
  writes : List ClusterWrite
  events : List CloudEvent
deriving DecidableEq, Repr

/-- `updateCloudPrivateIPConfigStatus` wrapped in `retry.RetryOnConflict`: the
(never-failing) status write persists and the threaded object is replaced by
the server's copy. -/
def SyncCtx.updateStatus (k : SyncCtx) (s : CloudPrivateIPConfigStatus) : SyncCtx :=
  { k with obj := { k.obj with status := s },
           writes := k.writes ++ [ClusterWrite.statusWrite s] }

/-- `updateCloudPrivateIPConfig` wrapped in `retry.RetryOnConflict`: the
(never-failing) object write persists the new finalizer list. -/
def SyncCtx.updateObject (k : SyncCtx) (o : CloudPrivateIPConfig) : SyncCtx :=
  { k with obj := o, writes := k.writes ++ [ClusterWrite.objectWrite o.finalizers] }

/-- Ends the sync with return value `nil` (`e = false`) or an error (`e = true`). -/
def SyncCtx.finish (k : SyncCtx) (e : Bool) : SyncOut :=
  ⟨k.obj, e, false, k.writes, k.events⟩

/-- Ends the sync at a Go runtime panic. -/
def SyncCtx.panic (k : SyncCtx) : SyncOut :=
  ⟨k.obj, false, true, k.writes, k.events⟩

/-- The observed generation carried by a status: `Conditions[0].ObservedGeneration`
when a condition exists and 0 otherwise — exactly the base-generation logic of
the add half of `SyncHandler` ("If the object is new there won't be a
generation set, so initialize it to 0"). -/
def statusGen (s : CloudPrivateIPConfigStatus) : Int :=
  match s.conditions.head? with
  | some cond => cond.observedGeneration
  | none => 0

/-- Static part of the release-request error message written by `SyncHandler`. -/
def releaseRequestErrMsg : String := "Error issuing cloud release request"

/-- Static part of the cloud-response error message written by `SyncHandler`. -/
def cloudResponseErrMsg : String := "Error processing cloud request"

/-- Static part of the assign-request error message written by `SyncHandler`. -/
def assignRequestErrMsg : String := "Error issuing cloud assignment request"

/-- The delete half of `SyncHandler` (controller source, `if nodeToDel != ""`
block). Returns `Sum.inl` when the sync ends inside this half, and
`Sum.inr (k, lastStatus)` when control falls through to the add half, carrying
the last value of the Go `status` variable (persisted again by the fall-through
bottom write when `nodeToAdd` is empty).

Faithful details: the node lookup failure formats `node.Name` on a nil pointer
(a panic); `Status.Conditions[0]` is read before each of the first two status
writes (a panic when no condition exists, but only after `ReleasePrivateIP` was
already issued); the finalizer-removal block only runs when the wait succeeded. -/
def syncDeleteHalf (nodes : List String) (cloud : FakeCloud) (k0 : SyncCtx)
    (nodeToAdd nodeToDel : String) :
    SyncOut ⊕ (SyncCtx × CloudPrivateIPConfigStatus) :=
  if ¬ nodes.contains nodeToDel then Sum.inl k0.panic
  else
    let rel := fakeRelease cloud
    let k1 : SyncCtx :=
      { k0 with events := k0.events ++ [CloudEvent.releaseReq nodeToDel rel] }
    if ¬ rel then
      match k1.obj.status.conditions.head? with
      | none => Sum.inl k1.panic
      | some cond =>
        let st : CloudPrivateIPConfigStatus :=
          ⟨k1.obj.status.node,
           [mkCondition ConditionStatus.conditionFalse (cond.observedGeneration + 1)
              cloudResponseReasonError releaseRequestErrMsg]⟩
        Sum.inl ((k1.updateStatus st).finish true)
    else
      match k1.obj.status.conditions.head? with
      | none => Sum.inl k1.panic
      | some cond =>
        let pcond := mkCondition ConditionStatus.conditionUnknown
          (cond.observedGeneration + 1) cloudResponseReasonPending ""
        let pending : CloudPrivateIPConfigStatus := ⟨k1.obj.status.node, [pcond]⟩
        let k2 := k1.updateStatus pending
        let waitOk := fakeWait cloud
        let k3 : SyncCtx := { k2 with events := k2.events ++ [CloudEvent.waitResp waitOk] }
        if k3.obj.deletionTimestampSet && containsFinalizer k3.obj && waitOk then
          Sum.inl ((k3.updateObject (removeFinalizer k3.obj)).finish false)
        else if ¬ waitOk then
          -- the object's Conditions[0] is the pending condition just written
          let st : CloudPrivateIPConfigStatus :=
            ⟨k3.obj.status.node,
             [mkCondition ConditionStatus.conditionFalse (pcond.observedGeneration + 1)
                cloudResponseReasonError cloudResponseErrMsg]⟩
          Sum.inl ((k3.updateStatus st).finish true)
        else if nodeToAdd ≠ "" then
          -- interim write between the two halves of an update; the Go literal
          -- sets no Node field, so the persisted status node is ""
          let post : CloudPrivateIPConfigStatus :=
            ⟨"", [mkCondition ConditionStatus.conditionUnknown (pcond.observedGeneration + 1)
              cloudResponseReasonPending ""]⟩
          Sum.inr (k3.updateStatus post, post)
        else
          Sum.inr (k3, pending)

/-- The add half of `SyncHandler` (controller source, `if nodeToAdd != ""` block),
including the bottom status write the function ends with on the successful path.

Faithful details: the node lookup failure panics like the delete half's; the
base generation is 0 when the object carries no condition yet; on the
`AlreadyExistingIPError` sentinel the status is written and the sync returns
nil without adding the finalizer or waiting; the assign-error and wait-error
statuses set no Node field (persisted node is `""`); the finalizer, when
absent, is added and persisted before the interim Pending status write. -/
def syncAddHalf (nodes : List String) (cloud : FakeCloud) (k0 : SyncCtx)
    (nodeToAdd : String) : SyncOut :=
  if ¬ nodes.contains nodeToAdd then k0.panic
  else
    let generation : Int := statusGen k0.obj.status
    let asg := fakeAssign cloud
    let k1 : SyncCtx :=
      { k0 with events := k0.events ++ [CloudEvent.assignReq nodeToAdd asg] }
    match asg with
    | AssignOutcome.alreadyExisting =>
      let st : CloudPrivateIPConfigStatus :=
        ⟨k1.obj.spec.node,
         [mkCondition ConditionStatus.conditionTrue (generation + 1)
            cloudResponseReasonSuccess ""]⟩
      (k1.updateStatus st).finish false
    | AssignOutcome.failed =>
      let st : CloudPrivateIPConfigStatus :=
        ⟨"", [mkCondition ConditionStatus.conditionFalse (generation + 1)
          cloudResponseReasonError assignRequestErrMsg]⟩
      (k1.updateStatus st).finish true
    | AssignOutcome.dispatched =>
      let pcond := mkCondition ConditionStatus.conditionUnknown (generation + 1)
        cloudResponseReasonPending ""
      let pending : CloudPrivateIPConfigStatus := ⟨k1.obj.spec.node, [pcond]⟩
      let k2 := if ¬ containsFinalizer k1.obj then k1.updateObject (addFinalizer k1.obj) else k1
      let k3 := k2.updateStatus pending
      let waitOk := fakeWait cloud
      let k4 : SyncCtx := { k3 with events := k3.events ++ [CloudEvent.waitResp waitOk] }
      if ¬ waitOk then
        let st : CloudPrivateIPConfigStatus :=
          ⟨"", [mkCondition ConditionStatus.conditionFalse (pcond.observedGeneration + 1)
            cloudResponseReasonError cloudResponseErrMsg]⟩
        (k4.updateStatus st).finish true
      else
        -- keep status.node from the interim write; persisted by the bottom write
        let st : CloudPrivateIPConfigStatus :=
          ⟨k4.obj.status.node,
           [mkCondition ConditionStatus.conditionTrue (pcond.observedGeneration + 1)
              cloudResponseReasonSuccess ""]⟩
        (k4.updateStatus st).finish false

/-- `SyncHandler` from the controller source, over the fake cloud, for one key
whose object is in the informer cache (the key-split and cache-miss branches
return nil without touching anything and are not modelled). `nodes` is the
node lister's store. -/
def syncHandler (nodes : List String) (cloud : FakeCloud) (c : CloudPrivateIPConfig) :
    SyncOut :=
  let k0 : SyncCtx := ⟨c, [], []⟩
  match computeOp c with
  | none => k0.panic
  | some (nodeToAdd, nodeToDel) =>
    -- Dequeue on NOOP, there's nothing to do
    if nodeToAdd = "" ∧ nodeToDel = "" then k0.finish false
    else if nodeToDel = "" then syncAddHalf nodes cloud k0 nodeToAdd
    else
      match syncDeleteHalf nodes cloud k0 nodeToAdd nodeToDel with
      | Sum.inl out => out
      | Sum.inr (k, lastStatus) =>
        if nodeToAdd ≠ "" then syncAddHalf nodes cloud k nodeToAdd
        else (k.updateStatus lastStatus).finish false

/-!
The in-src `FakeCloudProvider` keeps no cloud state, so the spec's sentence "No
IP literal is ever simultaneously present on two distinct nodes in the fake
cloud" (claim C1) is interpreted over the sync's cloud-call sequence: an
`AssignPrivateIP` call that returned nil grants the IP to the called node, a
`ReleasePrivateIP` call that returned nil removes it, every other call changes
nothing. The following definitions carry that interpretation; they embed no
repository code and are used only to state claim C1.
-/

/-- One cloud call's effect on the set of nodes the IP has been granted to
(the interpretation above). -/
def applyEvent (hs : List String) : CloudEvent → List String
  | CloudEvent.releaseReq n true => hs.filter (fun h => h ≠ n)
  | CloudEvent.releaseReq _ false => hs
  | CloudEvent.assignReq n AssignOutcome.dispatched => hs ++ [n]
  | CloudEvent.assignReq _ _ => hs
  | CloudEvent.waitResp _ => hs

/-- The granted-set after a whole call sequence, starting from `hs`. -/
def heldAfter (hs : List String) (evs : List CloudEvent) : List String :=
  evs.foldl applyEvent hs

/-- All intermediate granted-sets while a sync's call sequence plays out,
starting from `hs` (the scan of `applyEvent`). -/
def holderTrace (hs : List String) : List CloudEvent → List (List String)
  | [] => [hs]
  | e :: rest => hs :: holderTrace (applyEvent hs e) rest

/-- At most one node holds the IP: any two holders are equal. -/
def AtMostOne (hs : List String) : Prop :=
  ∀ x ∈ hs, ∀ y ∈ hs, x = y

instance (hs : List String) : Decidable (AtMostOne hs) := by
  unfold AtMostOne; infer_instance

/-- Inductive invariant tying the granted-set to the persisted object: either
no node was granted the IP, or every granted node is the persisted
`status.node` (which is then non-empty). -/
def HolderInv (c : CloudPrivateIPConfig) (hs : List String) : Prop :=
  hs = [] ∨ (c.status.node ≠ "" ∧ ∀ h ∈ hs, h = c.status.node)

instance (c : CloudPrivateIPConfig) (hs : List String) : Decidable (HolderInv c hs) := by
  unfold HolderInv; infer_instance

/-- Checks that every assign request in the event list occurs strictly after a
successful `ReleasePrivateIP` of node `d` and a subsequent successful
`WaitForResponse`. -/
def assignsAfterReleaseOf (d : String) : Bool → Bool → List CloudEvent → Bool
  | _, _, [] => true
  | relOk, waitOk, CloudEvent.releaseReq n ok :: rest =>
    assignsAfterReleaseOf d (relOk || ((n == d) && ok)) waitOk rest
  | relOk, waitOk, CloudEvent.waitResp ok :: rest =>
    assignsAfterReleaseOf d relOk (waitOk || (relOk && ok)) rest
  | relOk, waitOk, CloudEvent.assignReq _ _ :: rest =>
    relOk && waitOk && assignsAfterReleaseOf d relOk waitOk rest

/-- Top-level form of `assignsAfterReleaseOf`, with nothing released yet. -/
def assignsPrecededByRelease (d : String) (evs : List CloudEvent) : Bool :=
  assignsAfterReleaseOf d false false evs

/-- State of the one-key world: the persisted CPIC object and the derived
granted-set accumulated over all cloud calls so far. -/
structure World where
  obj : CloudPrivateIPConfig
  held : List String
deriving DecidableEq, Repr

/-- The world after one `SyncHandler` invocation against the fake cloud with
the given mock-error flags: the persisted object, and the granted-set after
the sync's cloud calls. -/
def worldAfterSync (nodes : List String) (cloud : FakeCloud) (w : World) : World :=
  let out := syncHandler nodes cloud w.obj
  ⟨out.obj, heldAfter w.held out.events⟩

/-- The world after the consumer patches `spec.node` (a spec write, which the
controller never performs itself). -/
def patchSpecWorld (n : String) (w : World) : World :=
  ⟨{ w.obj with spec := ⟨n⟩ }, w.held⟩

/-- The world after the external API sets the deletion timestamp. -/
def markDeletedWorld (w : World) : World :=
  ⟨{ w.obj with deletionTimestampSet := true }, w.held⟩

/-- One step of the one-key system: a sync under arbitrary mock-error flags, a
consumer spec patch, or a deletion request. -/
inductive Step (nodes : List String) : World → World → Prop
  | sync (cloud : FakeCloud) (w : World) : Step nodes w (worldAfterSync nodes cloud w)
  | patchSpec (n : String) (w : World) : Step nodes w (patchSpecWorld n w)
  | markDeleted (w : World) : Step nodes w (markDeletedWorld w)

/-- The fake cloud with all mock-error flags cleared. -/
def ffCloud : FakeCloud := ⟨false, false, false, false⟩

/-- One fault-free step: as `Step`, but every sync runs with all mock-error
flags cleared (the cloud dispatches, and every wait succeeds). -/
inductive StepFF (nodes : List String) : World → World → Prop
  | sync (w : World) : StepFF nodes w (worldAfterSync nodes ffCloud w)
  | patchSpec (n : String) (w : World) : StepFF nodes w (patchSpecWorld n w)
  | markDeleted (w : World) : StepFF nodes w (markDeletedWorld w)

/-- Reachability under arbitrary-fault steps. -/
inductive Reachable (nodes : List String) (w0 : World) : World → Prop
  | refl : Reachable nodes w0 w0
  | tail {w w' : World} : Reachable nodes w0 w → Step nodes w w' → Reachable nodes w0 w'

/-- Reachability under fault-free steps. -/
inductive ReachableFF (nodes : List String) (w0 : World) : World → Prop
  | refl : ReachableFF nodes w0 w0
  | tail {w w' : World} : ReachableFF nodes w0 w → StepFF nodes w w' → ReachableFF nodes w0 w'

/-- The status carried by a cluster write, when it is a status write. -/
def statusPart : ClusterWrite → Option CloudPrivateIPConfigStatus
  | ClusterWrite.statusWrite s => some s
  | ClusterWrite.objectWrite _ => none

/-- Status writes among a sync's cluster writes, in order. -/
def statusWritesOf (out : SyncOut) : List CloudPrivateIPConfigStatus :=
  out.writes.filterMap statusPart

/-- The observed generation carried by the object before the sync. -/
def baseGen (c : CloudPrivateIPConfig) : Int := statusGen c.status

/-- `b = a + 1` steps, used to state that persisted generations increase by
exactly one per status write. -/
def GenChain (g : Int) (gs : List Int) : Prop :=
  List.Chain (fun a b => b = a + 1) g gs

/-- The derived-operation table transcribed from the specification's words
(claim C3): release-only on finalized deletion; release-then-assign when spec
and status disagree; assign-only when unassigned or the condition is not True;
otherwise no operation. Stated totally, reading `conditions[0].status` through
`head?`. -/
def specDerivedOp (c : CloudPrivateIPConfig) : String × String :=
  if c.deletionTimestampSet && containsFinalizer c then ("", c.status.node)
  else if c.spec.node ≠ c.status.node then (c.spec.node, c.status.node)
  else if c.status.node = "" ∨
      (c.status.conditions.head?).map Condition.status ≠ some ConditionStatus.conditionTrue then
    (c.spec.node, "")
  else ("", "")

/-! ## AWS adapter embedding (`pkg/cloudprovider/aws.go`)

The repository's `AssignPrivateIP` for AWS inspects the first network
interface of the node's EC2 instance. The embedding views each address entry
of that interface through `net.ParseIP`: an entry is `some a` when the stored
string parses to the address `a` and `none` when `net.ParseIP` rejects it (the
Go loop skips the duplicate check for such entries but still keeps them in the
re-assigned set). -/

/-- A parsed IP address; the payload is an abstract numeric value, equality of
parsed addresses mirrors `net.IP.Equal`. -/
inductive IPAddr
  | v4 (a : Nat)
  | v6 (a : Nat)
deriving DecidableEq, Repr

/-- `utilnet.IsIPv6`. -/
def IPAddr.isIPv6 : IPAddr → Bool
  | IPAddr.v6 _ => true
  | IPAddr.v4 _ => false

/-- The first network interface of the EC2 instance backing the node:
`Ipv6Addresses` and `PrivateIpAddresses`, each entry through `net.ParseIP`. -/
structure AwsNetworkInterface where
  ipv6Addresses : List (Option IPAddr)
  privateIpAddresses : List (Option IPAddr)
deriving DecidableEq, Repr

/-- A Go error value as the reconciler distinguishes it: the package sentinel
`cloudprovider.AlreadyExistingIPError` (compared by identity) or a fresh
`fmt.Errorf` value, never identical to the sentinel. -/
inductive GoError
  | alreadyExistingIPSentinel
  | errorf (msg : String)
deriving DecidableEq, Repr

/-- Result of the AWS `AssignPrivateIP`: the address set sent to the EC2
`AssignIpv6Addresses`/`AssignPrivateIpAddresses` mutation if one was issued,
and the returned error if any (the post-mutation instance poll is modelled as
succeeding; no verified property depends on it). -/
structure AwsCallResult where
  issuedAddresses : Option (List (Option IPAddr))
  err : Option GoError
deriving DecidableEq, Repr

/-- Static duplicate-IPv6 error message of the AWS adapter. -/
def awsDupV6Msg : String := "error: cannot assign existing IPv6 address to node"

/-- Static duplicate-IPv4 error message of the AWS adapter. -/
def awsDupV4Msg : String := "error: cannot assign existing IPv4 address to node"

/-- `AssignPrivateIP` of the AWS adapter (`pkg/cloudprovider/aws.go`): for an
IPv6 target it scans `Ipv6Addresses`, erroring with `fmt.Errorf` on an entry
equal to the target (before any cloud call) and otherwise assigning the
existing set plus the new address; the IPv4 path is analogous over
`PrivateIpAddresses`. -/
def awsAssignPrivateIP (ip : IPAddr) (nic : AwsNetworkInterface) : AwsCallResult :=
  if ip.isIPv6 then
    if nic.ipv6Addresses.contains (some ip) then
      ⟨none, some (GoError.errorf awsDupV6Msg)⟩
    else
      ⟨some (nic.ipv6Addresses ++ [some ip]), none⟩
  else
    if nic.privateIpAddresses.contains (some ip) then
      ⟨none, some (GoError.errorf awsDupV4Msg)⟩
    else
      ⟨some (nic.privateIpAddresses ++ [some ip]), none⟩

/-! ## Concrete scenario inputs (from the controller test harness) -/

/-- The node lister's store in the controller test. -/
def testNodes : List String := ["nodeA", "nodeB", "nodeC"]

/-- A freshly created CPIC: name `192.168.172.12`, `spec.node = nodeA`,
no finalizer, no status. -/
def freshCPIC : CloudPrivateIPConfig :=
  ⟨"192.168.172.12", false, [], ⟨"nodeA"⟩, ⟨"", []⟩⟩

/-- The steady assigned state of scenario 1 with `spec.node` patched to
`nodeB`: finalizer present, `status.node = nodeA`, condition True/Success with
observed generation 2. -/
def steadyPatchedCPIC : CloudPrivateIPConfig :=
  ⟨"192.168.172.12", false, [cloudPrivateIPConfigFinalizer], ⟨"nodeB"⟩,
   ⟨"nodeA", [mkCondition ConditionStatus.conditionTrue 2 cloudResponseReasonSuccess ""]⟩⟩

/-- The crash-recovery object of the AlreadyExistingIPError test: finalizer
present, `status.node = nodeA`, condition Unknown/Pending with observed
generation 5, `spec.node = nodeA`. -/
def resyncPendingCPIC : CloudPrivateIPConfig :=
  ⟨"192.168.172.12", false, [cloudPrivateIPConfigFinalizer], ⟨"nodeA"⟩,
   ⟨"nodeA", [mkCondition ConditionStatus.conditionUnknown 5 cloudResponseReasonPending ""]⟩⟩

/-- The deletion test object: deletion timestamp set, finalizer present,
`status.node = nodeA`, condition True/Success with observed generation 2. -/
def deletingCPIC : CloudPrivateIPConfig :=
  ⟨"192.168.172.12", true, [cloudPrivateIPConfigFinalizer], ⟨"nodeA"⟩,
   ⟨"nodeA", [mkCondition ConditionStatus.conditionTrue 2 cloudResponseReasonSuccess ""]⟩⟩

/-- Initial one-key world: the fresh object, the IP granted to no node. -/
def initialWorld : World := ⟨freshCPIC, []⟩

/-- The fake cloud whose only fault is `mockErrorOnWait`. -/
def waitFailCloud : FakeCloud := ⟨false, false, false, true⟩

/-- The fake cloud configured (as in the controller test) to report the IP as
already existing: both mock assign flags set. -/
def alreadyAssignedCloud : FakeCloud := ⟨true, true, false, false⟩

/-- World after syncing the fresh object with a failing `WaitForResponse`:
the assign was dispatched (the cloud granted the IP to nodeA) but the
persisted status was rewritten with an empty node. -/
def c1WorldAfterWaitFail : World := worldAfterSync testNodes waitFailCloud initialWorld

/-- World after the consumer then patches `spec.node` to `nodeB`. -/
def c1WorldPatched : World := patchSpecWorld "nodeB" c1WorldAfterWaitFail

/-- World after a subsequent fault-free sync: the controller assigns the IP to
`nodeB` without ever releasing it from `nodeA`. -/
def c1WorldDouble : World := worldAfterSync testNodes ffCloud c1WorldPatched

/-! ## Helper lemmas -/

theorem genChain_nil (g : Int) : GenChain g [] := List.Chain.nil

theorem genChain_cons (g x : Int) (xs : List Int) :
    GenChain g (x :: xs) ↔ x = g + 1 ∧ GenChain x xs := List.chain_cons

theorem genChain_append (g : Int) (l1 l2 : List Int)
    (h1 : GenChain g l1) (h2 : GenChain (l1.getLastD g) l2) : GenChain g (l1 ++ l2) := by
  induction l1 generalizing g with
  | nil => simpa using h2
  | cons x xs ih =>
    rw [genChain_cons] at h1
    rw [List.getLastD_cons] at h2
    rw [List.cons_append, genChain_cons]
    exact ⟨h1.1, ih x h1.2 h2⟩

theorem syncAddHalf_writes_chain (nodes : List String) (cloud : FakeCloud) (k : SyncCtx)
    (a : String) :
    ∃ tail, (syncAddHalf nodes cloud k a).writes = k.writes ++ tail ∧
      GenChain (statusGen k.obj.status) ((tail.filterMap statusPart).map statusGen) := by
  unfold syncAddHalf
  split
  · exact ⟨[], by simp [SyncCtx.panic], genChain_nil _⟩
  · dsimp only
    rcases hres : fakeAssign cloud
    · simp only [hres]
      split <;> split <;>
        (refine ⟨_, by (simp only [SyncCtx.updateObject, SyncCtx.updateStatus, SyncCtx.finish,
            List.append_assoc]; rfl), ?_⟩
         simp [statusPart, statusGen, mkCondition, genChain_cons, genChain_nil])
    · simp only [hres]
      refine ⟨_, by (simp only [SyncCtx.updateStatus, SyncCtx.finish,
          List.append_assoc]; rfl), ?_⟩
      simp [statusPart, statusGen, mkCondition, genChain_cons, genChain_nil]
    · simp only [hres]
      refine ⟨_, by (simp only [SyncCtx.updateStatus, SyncCtx.finish,
          List.append_assoc]; rfl), ?_⟩
      simp [statusPart, statusGen, mkCondition, genChain_cons, genChain_nil]

theorem syncDeleteHalf_writes_chain (nodes : List String) (cloud : FakeCloud) (k : SyncCtx)
    (a d : String) :
    (∃ out, syncDeleteHalf nodes cloud k a d = Sum.inl out ∧
       ∃ tail, out.writes = k.writes ++ tail ∧
         GenChain (statusGen k.obj.status) ((tail.filterMap statusPart).map statusGen))
    ∨ (∃ k2 ls tail, syncDeleteHalf nodes cloud k a d = Sum.inr (k2, ls) ∧
       k2.writes = k.writes ++ tail ∧
       GenChain (statusGen k.obj.status) ((tail.filterMap statusPart).map statusGen) ∧
       statusGen k2.obj.status =
         ((tail.filterMap statusPart).map statusGen).getLastD (statusGen k.obj.status)) := by
  unfold syncDeleteHalf
  split
  · exact Or.inl ⟨_, rfl, [], by simp [SyncCtx.panic], genChain_nil _⟩
  · dsimp only
    split
    · split
      · exact Or.inl ⟨_, rfl, [], by simp [SyncCtx.panic], genChain_nil _⟩
      · next cond hhead =>
        refine Or.inl ⟨_, rfl, _,
          by (simp only [SyncCtx.updateStatus, SyncCtx.finish, List.append_assoc]; rfl), ?_⟩
        simp [statusPart, statusGen, mkCondition, hhead, genChain_cons, genChain_nil]
    · split
      · exact Or.inl ⟨_, rfl, [], by simp [SyncCtx.panic], genChain_nil _⟩
      · next cond hhead =>
        split
        · refine Or.inl ⟨_, rfl, _,
            by (simp only [SyncCtx.updateStatus, SyncCtx.updateObject, SyncCtx.finish,
                  List.append_assoc]; rfl), ?_⟩
          simp [statusPart, statusGen, mkCondition, hhead, genChain_cons, genChain_nil]
        · split
          · refine Or.inl ⟨_, rfl, _,
              by (simp only [SyncCtx.updateStatus, SyncCtx.finish, List.append_assoc]; rfl), ?_⟩
            simp [statusPart, statusGen, mkCondition, hhead, genChain_cons, genChain_nil]
          · split
            · refine Or.inr ⟨_, _, _, rfl,
                by (simp only [SyncCtx.updateStatus, List.append_assoc]; rfl), ?_, ?_⟩
              · simp [statusPart, statusGen, mkCondition, hhead, genChain_cons, genChain_nil]
              · simp [SyncCtx.updateStatus, statusPart, statusGen, mkCondition, hhead]
            · refine Or.inr ⟨_, _, _, rfl,
                by (simp only [SyncCtx.updateStatus, List.append_assoc]; rfl), ?_, ?_⟩
              · simp [statusPart, statusGen, mkCondition, hhead, genChain_cons, genChain_nil]
              · simp [SyncCtx.updateStatus, statusPart, statusGen, mkCondition, hhead]

theorem computeOp_release_only (c : CloudPrivateIPConfig) (d : String)
    (hop : computeOp c = some ("", d)) (hd : d ≠ "") (hspec : c.spec.node ≠ "") :
    c.deletionTimestampSet = true ∧ containsFinalizer c = true ∧ d = c.status.node := by
  unfold computeOp at hop
  split at hop
  · next h =>
    rw [Bool.and_eq_true] at h
    simp only [Option.some.injEq, Prod.mk.injEq, true_and] at hop
    exact ⟨h.1, h.2, hop.symm⟩
  · split at hop
    · simp only [Option.some.injEq, Prod.mk.injEq] at hop
      exact absurd hop.1 hspec
    · split at hop
      · simp only [Option.some.injEq, Prod.mk.injEq] at hop
        exact absurd hop.1 hspec
      · split at hop
        · exact absurd hop (by simp)
        · split at hop
          · simp only [Option.some.injEq, Prod.mk.injEq] at hop
            exact absurd hop.1 hspec
          · simp only [Option.some.injEq, Prod.mk.injEq] at hop
            exact absurd hop.2.symm hd

theorem syncDeleteHalf_inl_of_finalizing (nodes : List String) (cloud : FakeCloud)
    (k : SyncCtx) (a d : String)
    (hdt : k.obj.deletionTimestampSet = true) (hfin : containsFinalizer k.obj = true) :
    ∃ out, syncDeleteHalf nodes cloud k a d = Sum.inl out := by
  unfold syncDeleteHalf
  split
  · exact ⟨_, rfl⟩
  · dsimp only
    split
    · split
      · exact ⟨_, rfl⟩
      · exact ⟨_, rfl⟩
    · split
      · exact ⟨_, rfl⟩
      · split
        · exact ⟨_, rfl⟩
        · next hrem =>
          split
          · exact ⟨_, rfl⟩
          · next hwait =>
            exfalso
            simp only [SyncCtx.updateStatus, containsFinalizer, Bool.and_eq_true,
              Bool.not_eq_true] at hrem hwait
            simp only [containsFinalizer] at hfin
            exact hrem ⟨⟨hdt, hfin⟩,
              by revert hwait; cases fakeWait cloud <;> simp⟩

/-! ## Claim C3: the derived-operation table -/

/-- C3: for every CPIC object (whose state does not make the Go code panic on
an empty `Status.Conditions` slice, i.e. with a condition present or an empty
`status.node`), `computeOp` returns exactly the operation of the
specification's derived-operation table: release-only on finalized deletion,
release-then-assign when spec and status disagree, assign-only when unassigned
or the condition is not True, otherwise no operation. -/
theorem C3_computeOp_matches_spec_table (c : CloudPrivateIPConfig)
    (h : c.status.conditions ≠ [] ∨ c.status.node = "") :
    computeOp c = some (specDerivedOp c) := by
  unfold computeOp specDerivedOp
  rcases hc : c.status.conditions with _ | ⟨cond, rest⟩
  · rcases h with h | h
    · exact absurd hc h
    · simp only [h, hc]
      split <;> simp
  · by_cases h1 : c.deletionTimestampSet && containsFinalizer c
    · simp [h1]
    · by_cases h2 : c.spec.node = c.status.node
      · by_cases h3 : c.status.node = ""
        · simp [h1, h2, h3, hc]
        · by_cases h4 : cond.status = ConditionStatus.conditionTrue
          · simp [h1, h2, h3, hc, h4]
          · simp [h1, h2, h3, hc, h4]
      · simp [h1, h2]

/-- Witness for C3 at the fresh create object (empty `status.node`). -/
theorem C3_computeOp_matches_spec_table_witness :
    (freshCPIC.status.conditions ≠ [] ∨ freshCPIC.status.node = "") ∧
    computeOp freshCPIC = some (specDerivedOp freshCPIC) :=
  ⟨Or.inr rfl, C3_computeOp_matches_spec_table freshCPIC (Or.inr rfl)⟩

/-! ## Claim C7: observed generations increase by exactly one per status write -/

/-- C7: for every sync of an object with a non-empty `spec.node` (the only
shape the admission validator lets into the cluster), the observed generations
of the persisted status writes, in order, extend the object's current observed
generation (0 when no condition exists yet) by exactly one per write — in
particular they are strictly increasing across successive persisted states. -/
theorem C7_statusWrites_generation_chain (nodes : List String) (cloud : FakeCloud)
    (c : CloudPrivateIPConfig) (hspec : c.spec.node ≠ "") :
    GenChain (baseGen c) ((statusWritesOf (syncHandler nodes cloud c)).map statusGen) := by
  unfold syncHandler baseGen
  cases hop : computeOp c with
  | none =>
    simp only [SyncCtx.panic, statusWritesOf, List.filterMap_nil, List.map_nil]
    exact genChain_nil _
  | some p =>
    obtain ⟨a, d⟩ := p
    dsimp only
    split
    · simp only [SyncCtx.finish, statusWritesOf, List.filterMap_nil, List.map_nil]
      exact genChain_nil _
    · split
      · obtain ⟨tail, hw, hchain⟩ :=
          syncAddHalf_writes_chain nodes cloud ⟨c, [], []⟩ a
        simp only [statusWritesOf, hw]
        simpa using hchain
      · next hnoop hdne =>
        rcases syncDeleteHalf_writes_chain nodes cloud ⟨c, [], []⟩ a d with
          ⟨out, heq, tail, hw, hchain⟩ | ⟨k2, ls, tail, heq, hw, hchain, hlast⟩
        · simp only [heq, statusWritesOf, hw]
          simpa using hchain
        · simp only [heq]
          split
          · obtain ⟨tail2, hw2, hchain2⟩ := syncAddHalf_writes_chain nodes cloud k2 a
            simp only [statusWritesOf, hw2, hw]
            simp only [List.nil_append, List.filterMap_append, List.map_append]
            refine genChain_append _ _ _ (by simpa using hchain) ?_
            rw [← hlast]
            exact hchain2
          · next hane =>
            push_neg at hane
            have hd : d ≠ "" := by
              intro h
              exact hnoop ⟨hane, h⟩
            obtain ⟨hdt, hfin, hdn⟩ := computeOp_release_only c d (hane ▸ hop) hd hspec
            obtain ⟨out2, heq2⟩ :=
              syncDeleteHalf_inl_of_finalizing nodes cloud ⟨c, [], []⟩ a d hdt hfin
            rw [heq2] at heq
            exact absurd heq (by simp)

/-- Witness for C7: the update scenario starting from observed generation 2
produces the chained generations 3, 4, 5, 6. -/
theorem C7_statusWrites_generation_chain_witness :
    steadyPatchedCPIC.spec.node ≠ "" ∧
    GenChain (baseGen steadyPatchedCPIC)
      ((statusWritesOf (syncHandler testNodes ffCloud steadyPatchedCPIC)).map
        statusGen) :=
  ⟨by decide,
   C7_statusWrites_generation_chain testNodes ffCloud steadyPatchedCPIC (by decide)⟩

/-! ## Claim C4: update scenario terminal state -/

/-- C4: starting from the steady assigned state (finalizer present,
`status.node = nodeA`, condition True/Success with observed generation 2) with
`spec.node` patched to `nodeB`, a single sync against the fully successful fake
cloud ends with `status.node = nodeB`, condition True with reason
CloudResponseSuccess and observed generation exactly 6, after exactly the four
persisted status writes: release pending (3), post-release pending (4), assign
pending (5) and assign success (6). -/
theorem C4_update_scenario_terminal :
    (syncHandler testNodes ffCloud steadyPatchedCPIC).obj.status.node = "nodeB" ∧
    (syncHandler testNodes ffCloud steadyPatchedCPIC).obj.status.conditions =
      [mkCondition ConditionStatus.conditionTrue 6 cloudResponseReasonSuccess ""] ∧
    (syncHandler testNodes ffCloud steadyPatchedCPIC).retErr = false ∧
    (syncHandler testNodes ffCloud steadyPatchedCPIC).panicked = false ∧
    statusWritesOf (syncHandler testNodes ffCloud steadyPatchedCPIC) =
      [⟨"nodeA", [mkCondition ConditionStatus.conditionUnknown 3 cloudResponseReasonPending ""]⟩,
       ⟨"", [mkCondition ConditionStatus.conditionUnknown 4 cloudResponseReasonPending ""]⟩,
       ⟨"nodeB", [mkCondition ConditionStatus.conditionUnknown 5 cloudResponseReasonPending ""]⟩,
       ⟨"nodeB", [mkCondition ConditionStatus.conditionTrue 6 cloudResponseReasonSuccess ""]⟩] := by
  decide

/-! ## Claim C2: the finalizer invariant fails on the AlreadyAssigned path -/

/-- C2 (code bug evaluation): a freshly created object with no finalizer whose
assign request returns the `AlreadyExistingIPError` sentinel (the fake provider
with both mock assign flags set) completes its sync as a success — nil return,
no panic, a single True/Success status write — with the finalizer still
absent, even though the adapter just reported the IP as assigned to `nodeA` in
the cloud. This violates the specification's invariant that after a completed
sync the finalizer is present whenever the cloud has (or attempted to have)
the IP, so the object can later be deleted without any cloud release. -/
theorem C2_alreadyAssigned_leaves_finalizer_absent :
    fakeAssign alreadyAssignedCloud = AssignOutcome.alreadyExisting ∧
    (syncHandler testNodes alreadyAssignedCloud freshCPIC).retErr = false ∧
    (syncHandler testNodes alreadyAssignedCloud freshCPIC).panicked = false ∧
    (syncHandler testNodes alreadyAssignedCloud freshCPIC).obj.finalizers = [] ∧
    statusWritesOf (syncHandler testNodes alreadyAssignedCloud freshCPIC) =
      [⟨"nodeA", [mkCondition ConditionStatus.conditionTrue 1 cloudResponseReasonSuccess ""]⟩] ∧
    (syncHandler testNodes alreadyAssignedCloud freshCPIC).events =
      [CloudEvent.assignReq "nodeA" AssignOutcome.alreadyExisting] := by
  decide

/-! ## Claim C5: AlreadyAssigned is success without a wait -/

/-- C5: when `AssignPrivateIP` returns the `AlreadyExistingIPError` sentinel,
`SyncHandler` treats it as success without calling `WaitForResponse`: it
persists exactly one (further) status write `{node: spec.node, Assigned=True,
reason CloudResponseSuccess, observedGeneration + 1}` and returns nil. The
first conjunct states this for the add half entered from any sync context
(so it also covers the assign half of an update); the second instantiates it
for a whole assign-only sync, whose only cloud event is the assign request —
no wait — and whose only status write is the success write. -/
theorem C5_alreadyAssigned_single_write_no_wait :
    (∀ (nodes : List String) (cloud : FakeCloud) (k : SyncCtx) (a : String),
      nodes.contains a = true →
      fakeAssign cloud = AssignOutcome.alreadyExisting →
      (syncAddHalf nodes cloud k a).retErr = false ∧
      (syncAddHalf nodes cloud k a).panicked = false ∧
      (syncAddHalf nodes cloud k a).writes = k.writes ++
        [ClusterWrite.statusWrite ⟨k.obj.spec.node,
          [mkCondition ConditionStatus.conditionTrue (statusGen k.obj.status + 1)
            cloudResponseReasonSuccess ""]⟩] ∧
      (syncAddHalf nodes cloud k a).events =
        k.events ++ [CloudEvent.assignReq a AssignOutcome.alreadyExisting]) ∧
    (∀ (nodes : List String) (cloud : FakeCloud) (c : CloudPrivateIPConfig) (a : String),
      computeOp c = some (a, "") → a ≠ "" → nodes.contains a = true →
      fakeAssign cloud = AssignOutcome.alreadyExisting →
      (syncHandler nodes cloud c).retErr = false ∧
      statusWritesOf (syncHandler nodes cloud c) =
        [⟨c.spec.node, [mkCondition ConditionStatus.conditionTrue (baseGen c + 1)
          cloudResponseReasonSuccess ""]⟩] ∧
      (syncHandler nodes cloud c).events =
        [CloudEvent.assignReq a AssignOutcome.alreadyExisting]) := by
  have part1 : ∀ (nodes : List String) (cloud : FakeCloud) (k : SyncCtx) (a : String),
      nodes.contains a = true →
      fakeAssign cloud = AssignOutcome.alreadyExisting →
      (syncAddHalf nodes cloud k a).retErr = false ∧
      (syncAddHalf nodes cloud k a).panicked = false ∧
      (syncAddHalf nodes cloud k a).writes = k.writes ++
        [ClusterWrite.statusWrite ⟨k.obj.spec.node,
          [mkCondition ConditionStatus.conditionTrue (statusGen k.obj.status + 1)
            cloudResponseReasonSuccess ""]⟩] ∧
      (syncAddHalf nodes cloud k a).events =
        k.events ++ [CloudEvent.assignReq a AssignOutcome.alreadyExisting] := by
    intro nodes cloud k a hcont hsent
    unfold syncAddHalf
    rw [if_neg (not_not_intro hcont)]
    dsimp only
    simp only [hsent]
    simp [SyncCtx.updateStatus, SyncCtx.finish]
  refine ⟨part1, ?_⟩
  intro nodes cloud c a hop ha hcont hsent
  unfold syncHandler
  rw [hop]
  dsimp only
  rw [if_neg (by rintro ⟨h1, h2⟩; exact ha h1)]
  rw [if_pos rfl]
  obtain ⟨h1, h2, h3, h4⟩ := part1 nodes cloud ⟨c, [], []⟩ a hcont hsent
  refine ⟨h1, ?_, by simpa using h4⟩
  simp only [statusWritesOf, h3]
  simp [statusPart, baseGen]

/-- Witness for C5 at the crash-recovery test object, with the fake cloud
configured to report the IP as pre-existing. -/
theorem C5_alreadyAssigned_single_write_no_wait_witness :
    computeOp resyncPendingCPIC = some ("nodeA", "") ∧
    ("nodeA" : String) ≠ "" ∧
    testNodes.contains "nodeA" = true ∧
    fakeAssign alreadyAssignedCloud = AssignOutcome.alreadyExisting ∧
    ((syncHandler testNodes alreadyAssignedCloud resyncPendingCPIC).retErr = false ∧
      statusWritesOf (syncHandler testNodes alreadyAssignedCloud resyncPendingCPIC) =
        [⟨resyncPendingCPIC.spec.node, [mkCondition ConditionStatus.conditionTrue
          (baseGen resyncPendingCPIC + 1) cloudResponseReasonSuccess ""]⟩] ∧
      (syncHandler testNodes alreadyAssignedCloud resyncPendingCPIC).events =
        [CloudEvent.assignReq "nodeA" AssignOutcome.alreadyExisting]) :=
  ⟨by decide, by decide, by decide, by decide,
   C5_alreadyAssigned_single_write_no_wait.2 testNodes alreadyAssignedCloud
     resyncPendingCPIC "nodeA" (by decide) (by decide) (by decide) (by decide)⟩

/-! ## Claim C6: wait failure after a dispatched assign -/

/-- C6 counterexample: on a fresh create whose assign is dispatched and whose
`WaitForResponse` fails, the persisted error status has an EMPTY node — the
status literal at the wait-error write site sets no `Node` field — so the claim
that `status.node` remains `spec.node` (`nodeA`) is false at the last write. -/
theorem C6_waitFailure_counterexample :
    freshCPIC.spec.node = "nodeA" ∧
    (syncHandler testNodes waitFailCloud freshCPIC).retErr = true ∧
    statusWritesOf (syncHandler testNodes waitFailCloud freshCPIC) =
      [⟨"nodeA", [mkCondition ConditionStatus.conditionUnknown 1 cloudResponseReasonPending ""]⟩,
       ⟨"", [mkCondition ConditionStatus.conditionFalse 2 cloudResponseReasonError
         cloudResponseErrMsg]⟩] ∧
    ("" : String) ≠ "nodeA" := by
  decide

/-- C6 (amended): when `WaitForResponse` fails after a dispatched assign in an
assign-only sync, the persisted status is `{node: "", Assigned=False, reason
CloudResponseError, observedGeneration + 1 over the interim write}` — the
intended destination node is CLEARED, not kept — and the sync returns an error
so the key is requeued. -/
theorem C6_waitFailure_clears_status_node (nodes : List String) (cloud : FakeCloud)
    (c : CloudPrivateIPConfig) (a : String)
    (hop : computeOp c = some (a, "")) (ha : a ≠ "") (hcont : nodes.contains a = true)
    (hdisp : fakeAssign cloud = AssignOutcome.dispatched)
    (hwait : cloud.mockErrorOnWait = true) :
    (syncHandler nodes cloud c).retErr = true ∧
    statusWritesOf (syncHandler nodes cloud c) =
      [⟨c.spec.node, [mkCondition ConditionStatus.conditionUnknown (baseGen c + 1)
        cloudResponseReasonPending ""]⟩,
       ⟨"", [mkCondition ConditionStatus.conditionFalse (baseGen c + 2)
        cloudResponseReasonError cloudResponseErrMsg]⟩] := by
  unfold syncHandler
  rw [hop]
  dsimp only
  rw [if_neg (by rintro ⟨h1, h2⟩; exact ha h1)]
  rw [if_pos rfl]
  unfold syncAddHalf
  rw [if_neg (not_not_intro hcont)]
  dsimp only
  simp only [hdisp]
  have hw : fakeWait cloud = false := by
    unfold fakeWait
    rw [hwait]
    rfl
  by_cases hfin : containsFinalizer c
  · rw [if_neg (not_not_intro hfin)]
    simp [SyncCtx.updateStatus, SyncCtx.finish, hw, statusWritesOf, statusPart,
      baseGen, mkCondition]
    omega
  · rw [if_pos hfin]
    simp [SyncCtx.updateStatus, SyncCtx.updateObject, SyncCtx.finish, hw, statusWritesOf,
      statusPart, baseGen, mkCondition]
    omega

/-- Witness for the amended C6 at the fresh create object with a failing wait. -/
theorem C6_waitFailure_clears_status_node_witness :
    computeOp freshCPIC = some ("nodeA", "") ∧
    ("nodeA" : String) ≠ "" ∧
    testNodes.contains "nodeA" = true ∧
    fakeAssign waitFailCloud = AssignOutcome.dispatched ∧
    waitFailCloud.mockErrorOnWait = true ∧
    ((syncHandler testNodes waitFailCloud freshCPIC).retErr = true ∧
      statusWritesOf (syncHandler testNodes waitFailCloud freshCPIC) =
        [⟨freshCPIC.spec.node, [mkCondition ConditionStatus.conditionUnknown
          (baseGen freshCPIC + 1) cloudResponseReasonPending ""]⟩,
         ⟨"", [mkCondition ConditionStatus.conditionFalse (baseGen freshCPIC + 2)
          cloudResponseReasonError cloudResponseErrMsg]⟩]) :=
  ⟨by decide, by decide, by decide, by decide, by decide,
   C6_waitFailure_clears_status_node testNodes waitFailCloud freshCPIC "nodeA"
     (by decide) (by decide) (by decide) (by decide) (by decide)⟩

/-! ## Claim C8: missing node aborts the sync abnormally -/

/-- C8 counterexample: with a node store that lacks `nodeA`, the sync of the
fresh object does NOT terminate normally — it hits the Go nil-pointer panic
(formatting `node.Name` in the lookup-error message) — even though no cloud
request and no status write were issued; the error-return path (`return
fmt.Errorf(...)`) would requeue the key rather than drop it, so the claimed
"logged, dropped, terminates normally" behaviour does not occur. -/
theorem C8_missingNode_counterexample :
    (syncHandler ["nodeB"] ffCloud freshCPIC).panicked = true ∧
    (syncHandler ["nodeB"] ffCloud freshCPIC).writes = [] ∧
    (syncHandler ["nodeB"] ffCloud freshCPIC).events = [] := by
  decide

/-- C8 (amended): when the node referenced by the first half the computed
operation would execute (nodeToDel when non-empty, otherwise nodeToAdd) is
absent from the local node cache, `SyncHandler` aborts abnormally — the Go
code dereferences the nil node pointer while formatting the lookup error — and
progresses no further: no cloud request is issued and no cluster write is
persisted. -/
theorem C8_missingNode_panics_without_progress (nodes : List String) (cloud : FakeCloud)
    (c : CloudPrivateIPConfig) (a d : String) (hop : computeOp c = some (a, d))
    (hmiss : (d ≠ "" ∧ nodes.contains d = false) ∨
      (d = "" ∧ a ≠ "" ∧ nodes.contains a = false)) :
    (syncHandler nodes cloud c).panicked = true ∧
    (syncHandler nodes cloud c).writes = [] ∧
    (syncHandler nodes cloud c).events = [] := by
  unfold syncHandler
  rw [hop]
  dsimp only
  rcases hmiss with ⟨hd, hcont⟩ | ⟨hd, ha, hcont⟩
  · rw [if_neg (by rintro ⟨h1, h2⟩; exact hd h2)]
    rw [if_neg hd]
    unfold syncDeleteHalf
    rw [if_pos (by intro h; rw [hcont] at h; exact Bool.false_ne_true h)]
    simp [SyncCtx.panic]
  · rw [if_neg (by rintro ⟨h1, h2⟩; exact ha h1)]
    rw [if_pos hd]
    unfold syncAddHalf
    rw [if_pos (by intro h; rw [hcont] at h; exact Bool.false_ne_true h)]
    simp [SyncCtx.panic]

/-- Witness for the amended C8 at the fresh object with a node store lacking
`nodeA`. -/
theorem C8_missingNode_panics_without_progress_witness :
    computeOp freshCPIC = some ("nodeA", "") ∧
    (("" : String) ≠ "" ∧ (["nodeB"] : List String).contains "" = false ∨
      ("" : String) = "" ∧ ("nodeA" : String) ≠ "" ∧
        (["nodeB"] : List String).contains "nodeA" = false) ∧
    ((syncHandler ["nodeB"] ffCloud freshCPIC).panicked = true ∧
      (syncHandler ["nodeB"] ffCloud freshCPIC).writes = [] ∧
      (syncHandler ["nodeB"] ffCloud freshCPIC).events = []) :=
  ⟨by decide, Or.inr ⟨rfl, by decide, by decide⟩,
   C8_missingNode_panics_without_progress ["nodeB"] ffCloud freshCPIC "nodeA" ""
     (by decide) (Or.inr ⟨rfl, by decide, by decide⟩)⟩

/-! ## Claim C10: pure delete ends with the finalizer-only object write -/

/-- C10: for every pure delete (deletion timestamp set, finalizer present,
release half only) whose cloud release and wait both succeed, the sync performs
exactly two cluster writes: the interim status write `{node: old status.node,
Assigned=Unknown, reason CloudResponsePending, observedGeneration + 1}` and,
last, an object update that only removes the finalizer; the persisted object
keeps that interim Pending status (no Success status is ever written on this
path) and the sync returns nil. -/
theorem C10_pureDelete_finalizer_only_object_write (nodes : List String) (cloud : FakeCloud)
    (c : CloudPrivateIPConfig) (cond : Condition)
    (hdt : c.deletionTimestampSet = true) (hfin : containsFinalizer c = true)
    (hnode : c.status.node ≠ "") (hcont : nodes.contains c.status.node = true)
    (hhead : c.status.conditions.head? = some cond)
    (hrel : cloud.mockErrorOnRelease = false) (hwait : cloud.mockErrorOnWait = false) :
    (syncHandler nodes cloud c).retErr = false ∧
    (syncHandler nodes cloud c).panicked = false ∧
    (syncHandler nodes cloud c).writes =
      [ClusterWrite.statusWrite ⟨c.status.node,
        [mkCondition ConditionStatus.conditionUnknown (cond.observedGeneration + 1)
          cloudResponseReasonPending ""]⟩,
       ClusterWrite.objectWrite (c.finalizers.filter
         (fun f => f ≠ cloudPrivateIPConfigFinalizer))] ∧
    (syncHandler nodes cloud c).obj =
      removeFinalizer { c with status := ⟨c.status.node,
        [mkCondition ConditionStatus.conditionUnknown (cond.observedGeneration + 1)
          cloudResponseReasonPending ""]⟩ } := by
  have hop : computeOp c = some ("", c.status.node) := by
    unfold computeOp
    rw [if_pos (by rw [hdt, hfin]; rfl)]
  unfold syncHandler
  rw [hop]
  dsimp only
  rw [if_neg (by rintro ⟨h1, h2⟩; exact hnode h2)]
  rw [if_neg hnode]
  unfold syncDeleteHalf
  rw [if_neg (not_not_intro hcont)]
  dsimp only
  have hrel1 : fakeRelease cloud = true := by
    unfold fakeRelease
    rw [hrel]
    rfl
  rw [hrel1]
  rw [if_neg (by simp)]
  rw [hhead]
  dsimp only
  have hw : fakeWait cloud = true := by
    unfold fakeWait
    rw [hwait]
    rfl
  simp only [SyncCtx.updateStatus, containsFinalizer]
  rw [hw]
  have hfin2 : c.finalizers.contains cloudPrivateIPConfigFinalizer = true := by
    simpa [containsFinalizer] using hfin
  rw [hdt, hfin2]
  rw [if_pos (show (true && true && true) = true from rfl)]
  simp [SyncCtx.updateStatus, SyncCtx.updateObject, SyncCtx.finish, removeFinalizer]

/-- Witness for C10 at the deletion test object against the fully successful
fake cloud holding the IP on nodeA. -/
theorem C10_pureDelete_finalizer_only_object_write_witness :
    deletingCPIC.deletionTimestampSet = true ∧
    containsFinalizer deletingCPIC = true ∧
    deletingCPIC.status.node ≠ "" ∧
    testNodes.contains deletingCPIC.status.node = true ∧
    deletingCPIC.status.conditions.head? =
      some (mkCondition ConditionStatus.conditionTrue 2 cloudResponseReasonSuccess "") ∧
    ffCloud.mockErrorOnRelease = false ∧
    ffCloud.mockErrorOnWait = false ∧
    ((syncHandler testNodes ffCloud deletingCPIC).retErr = false ∧
      (syncHandler testNodes ffCloud deletingCPIC).panicked = false ∧
      (syncHandler testNodes ffCloud deletingCPIC).writes =
        [ClusterWrite.statusWrite ⟨deletingCPIC.status.node,
          [mkCondition ConditionStatus.conditionUnknown
            ((mkCondition ConditionStatus.conditionTrue 2
              cloudResponseReasonSuccess "").observedGeneration + 1)
            cloudResponseReasonPending ""]⟩,
         ClusterWrite.objectWrite (deletingCPIC.finalizers.filter
           (fun f => f ≠ cloudPrivateIPConfigFinalizer))] ∧
      (syncHandler testNodes ffCloud deletingCPIC).obj =
        removeFinalizer { deletingCPIC with status := ⟨deletingCPIC.status.node,
          [mkCondition ConditionStatus.conditionUnknown
            ((mkCondition ConditionStatus.conditionTrue 2
              cloudResponseReasonSuccess "").observedGeneration + 1)
            cloudResponseReasonPending ""]⟩ }) :=
  ⟨by decide, by decide, by decide, by decide, by decide, by decide, by decide,
   C10_pureDelete_finalizer_only_object_write testNodes ffCloud deletingCPIC
     (mkCondition ConditionStatus.conditionTrue 2 cloudResponseReasonSuccess "")
     (by decide) (by decide) (by decide) (by decide) (by decide) (by decide) (by decide)⟩

/-! ## Claim C9: the AWS duplicate-address path -/

/-- C9 counterexample: for an IPv4 target already present among the first
network interface's `PrivateIpAddresses`, the repository's AWS
`AssignPrivateIP` returns a plain `fmt.Errorf` value — NOT the
`AlreadyExistingIPError` sentinel — while issuing no cloud mutation; the claim
that the sentinel is returned is false at this input. -/
theorem C9_awsDuplicate_counterexample :
    awsAssignPrivateIP (IPAddr.v4 12) ⟨[], [some (IPAddr.v4 12)]⟩ =
      ⟨none, some (GoError.errorf awsDupV4Msg)⟩ ∧
    (awsAssignPrivateIP (IPAddr.v4 12) ⟨[], [some (IPAddr.v4 12)]⟩).err ≠
      some GoError.alreadyExistingIPSentinel := by
  decide

/-- C9 (amended): for every AWS assign request whose target IP already appears
(parsed) among the first network interface's assigned addresses —
`Ipv6Addresses` for an IPv6 target, `PrivateIpAddresses` for an IPv4 target —
`AssignPrivateIP` returns a plain formatted duplicate error, which is not the
`AlreadyExistingIPError` sentinel the reconciler interprets, and issues no
cloud mutation. -/
theorem C9_awsDuplicate_plain_error_no_mutation (ip : IPAddr) (nic : AwsNetworkInterface)
    (hdup : (if ip.isIPv6 then nic.ipv6Addresses else nic.privateIpAddresses).contains
      (some ip) = true) :
    awsAssignPrivateIP ip nic =
      ⟨none, some (GoError.errorf (if ip.isIPv6 then awsDupV6Msg else awsDupV4Msg))⟩ ∧
    (awsAssignPrivateIP ip nic).err ≠ some GoError.alreadyExistingIPSentinel := by
  unfold awsAssignPrivateIP
  by_cases h6 : ip.isIPv6 = true
  · simp [h6] at hdup ⊢
    simp [hdup]
  · have h6f : ip.isIPv6 = false := by
      revert h6
      cases ip.isIPv6 <;> simp
    simp [h6f] at hdup ⊢
    simp [hdup]

/-- Witness for the amended C9 at a concrete IPv6 duplicate. -/
theorem C9_awsDuplicate_plain_error_no_mutation_witness :
    (if (IPAddr.v6 7).isIPv6 then
        ([some (IPAddr.v6 7), none] : List (Option IPAddr))
      else ([] : List (Option IPAddr))).contains (some (IPAddr.v6 7)) = true ∧
    (awsAssignPrivateIP (IPAddr.v6 7) ⟨[some (IPAddr.v6 7), none], []⟩ =
      ⟨none, some (GoError.errorf (if (IPAddr.v6 7).isIPv6 then awsDupV6Msg
        else awsDupV4Msg))⟩ ∧
      (awsAssignPrivateIP (IPAddr.v6 7) ⟨[some (IPAddr.v6 7), none], []⟩).err ≠
        some GoError.alreadyExistingIPSentinel) :=
  ⟨by decide,
   C9_awsDuplicate_plain_error_no_mutation (IPAddr.v6 7) ⟨[some (IPAddr.v6 7), none], []⟩
     (by decide)⟩


/-! ## Claim C1: release-before-assign ordering and the single-holder property -/

theorem atMostOne_nil : AtMostOne [] := by
  intro x hx
  exact absurd hx (List.not_mem_nil x)

theorem atMostOne_singleton (x : String) : AtMostOne [x] := by
  intro y hy z hz
  rw [List.mem_singleton] at hy hz
  rw [hy, hz]

theorem atMostOne_of_all_eq (n : String) (hs : List String) (hall : ∀ h ∈ hs, h = n) :
    AtMostOne hs := by
  intro x hx y hy
  rw [hall x hx, hall y hy]

theorem holderInv_atMostOne {c : CloudPrivateIPConfig} {hs : List String}
    (h : HolderInv c hs) : AtMostOne hs := by
  rcases h with h | ⟨_, hall⟩
  · rw [h]; exact atMostOne_nil
  · exact atMostOne_of_all_eq _ _ hall

theorem filter_ne_nil_of_all_eq (n : String) (hs : List String)
    (hall : ∀ h ∈ hs, h = n) : hs.filter (fun h => h ≠ n) = [] := by
  rw [List.filter_eq_nil]
  intro h hh
  simp [hall h hh]

theorem all_eq_append_single (n : String) (hs : List String)
    (hall : ∀ h ∈ hs, h = n) : ∀ h ∈ hs ++ [n], h = n := by
  intro h hh
  rcases List.mem_append.mp hh with h1 | h1
  · exact hall h h1
  · exact List.mem_singleton.mp h1

theorem assignsAfter_true_true (d : String) (evs : List CloudEvent) :
    assignsAfterReleaseOf d true true evs = true := by
  induction evs with
  | nil => rfl
  | cons e rest ih =>
    cases e with
    | releaseReq n ok => simpa [assignsAfterReleaseOf] using ih
    | assignReq n o => simpa [assignsAfterReleaseOf] using ih
    | waitResp ok => simpa [assignsAfterReleaseOf] using ih

theorem computeOp_assign_only (c : CloudPrivateIPConfig) (a : String)
    (hop : computeOp c = some (a, "")) (ha : a ≠ "") :
    a = c.spec.node ∧ (c.status.node = "" ∨ c.status.node = c.spec.node) := by
  unfold computeOp at hop
  split at hop
  · simp only [Option.some.injEq, Prod.mk.injEq] at hop
    exact absurd hop.1.symm ha
  · split at hop
    · next h =>
      simp only [Option.some.injEq, Prod.mk.injEq] at hop
      exact ⟨hop.1.symm, Or.inl hop.2⟩
    · next h =>
      push_neg at h
      split at hop
      · next h3 =>
        simp only [Option.some.injEq, Prod.mk.injEq] at hop
        exact ⟨hop.1.symm, Or.inl h3⟩
      · split at hop
        · exact absurd hop (by simp)
        · split at hop
          · simp only [Option.some.injEq, Prod.mk.injEq] at hop
            exact ⟨hop.1.symm, Or.inr h.symm⟩
          · simp only [Option.some.injEq, Prod.mk.injEq] at hop
            exact absurd hop.1.symm ha

theorem computeOp_with_del (c : CloudPrivateIPConfig) (a d : String)
    (hop : computeOp c = some (a, d)) (hd : d ≠ "") :
    d = c.status.node ∧ (a = "" ∨ a = c.spec.node) := by
  unfold computeOp at hop
  split at hop
  · simp only [Option.some.injEq, Prod.mk.injEq] at hop
    exact ⟨hop.2.symm, Or.inl hop.1.symm⟩
  · split at hop
    · simp only [Option.some.injEq, Prod.mk.injEq] at hop
      exact ⟨hop.2.symm, Or.inr hop.1.symm⟩
    · split at hop
      · simp only [Option.some.injEq, Prod.mk.injEq] at hop
        exact absurd hop.2.symm hd
      · split at hop
        · exact absurd hop (by simp)
        · split at hop
          · simp only [Option.some.injEq, Prod.mk.injEq] at hop
            exact absurd hop.2.symm hd
          · simp only [Option.some.injEq, Prod.mk.injEq] at hop
            exact absurd hop.2.symm hd

theorem syncAddHalf_ff (nodes : List String) (k : SyncCtx) (a : String) :
    syncAddHalf nodes ffCloud k a = k.panic ∨
    ((syncAddHalf nodes ffCloud k a).events = k.events ++
        [CloudEvent.assignReq a AssignOutcome.dispatched, CloudEvent.waitResp true] ∧
      (syncAddHalf nodes ffCloud k a).obj.status.node = k.obj.spec.node) := by
  unfold syncAddHalf
  split
  · exact Or.inl rfl
  · right
    dsimp only
    rw [show fakeAssign ffCloud = AssignOutcome.dispatched from rfl]
    dsimp only
    rw [show fakeWait ffCloud = true from rfl]
    rw [if_neg (fun h => h rfl)]
    split
    · constructor
      · simp only [SyncCtx.updateStatus, SyncCtx.updateObject, SyncCtx.finish,
          List.append_assoc]
        rfl
      · rfl
    · constructor
      · simp only [SyncCtx.updateStatus, SyncCtx.finish, List.append_assoc]
        rfl
      · rfl

theorem syncDeleteHalf_ff (nodes : List String) (k : SyncCtx) (a d : String) :
    syncDeleteHalf nodes ffCloud k a d = Sum.inl k.panic ∨
    (∃ out, syncDeleteHalf nodes ffCloud k a d = Sum.inl out ∧ out.obj = k.obj ∧
      out.events = k.events ++ [CloudEvent.releaseReq d true]) ∨
    (∃ out, syncDeleteHalf nodes ffCloud k a d = Sum.inl out ∧
      out.events = k.events ++ [CloudEvent.releaseReq d true, CloudEvent.waitResp true]) ∨
    (∃ k2 ls, syncDeleteHalf nodes ffCloud k a d = Sum.inr (k2, ls) ∧
      k2.obj.spec.node = k.obj.spec.node ∧
      k2.events = k.events ++ [CloudEvent.releaseReq d true, CloudEvent.waitResp true]) := by
  unfold syncDeleteHalf
  split
  · exact Or.inl rfl
  · dsimp only
    rw [show fakeRelease ffCloud = true from rfl]
    rw [if_neg (fun h => h rfl)]
    split
    · exact Or.inr (Or.inl ⟨_, rfl, rfl, rfl⟩)
    · rw [show fakeWait ffCloud = true from rfl]
      split
      · refine Or.inr (Or.inr (Or.inl ⟨_, rfl, ?_⟩))
        simp only [SyncCtx.updateStatus, SyncCtx.updateObject, SyncCtx.finish,
          List.append_assoc]
        rfl
      · rw [if_neg (fun h => h rfl)]
        split
        · refine Or.inr (Or.inr (Or.inr ⟨_, _, rfl, rfl, ?_⟩))
          simp only [SyncCtx.updateStatus, List.append_assoc]
          rfl
        · refine Or.inr (Or.inr (Or.inr ⟨_, _, rfl, rfl, ?_⟩))
          simp only [SyncCtx.updateStatus, List.append_assoc]
          rfl

theorem syncFF_preserves (nodes : List String) (c : CloudPrivateIPConfig) (hs : List String)
    (hInv : HolderInv c hs) :
    HolderInv (syncHandler nodes ffCloud c).obj
      (heldAfter hs (syncHandler nodes ffCloud c).events) ∧
    ∀ t ∈ holderTrace hs (syncHandler nodes ffCloud c).events, AtMostOne t := by
  have hone : AtMostOne hs := holderInv_atMostOne hInv
  unfold syncHandler
  cases hop : computeOp c with
  | none =>
    refine ⟨hInv, ?_⟩
    intro t ht
    simp only [SyncCtx.panic, holderTrace, List.mem_singleton] at ht
    rw [ht]
    exact hone
  | some p =>
    obtain ⟨a, d⟩ := p
    dsimp only
    split
    · refine ⟨hInv, ?_⟩
      intro t ht
      simp only [SyncCtx.finish, holderTrace, List.mem_singleton] at ht
      rw [ht]
      exact hone
    · next hnoop =>
      split
      · -- assign-only sync
        next hdeq =>
        have ha : a ≠ "" := fun h => hnoop ⟨h, hdeq⟩
        have hfacts := computeOp_assign_only c a (hdeq ▸ hop) ha
        rcases syncAddHalf_ff nodes ⟨c, [], []⟩ a with hpan | ⟨hev, hnode⟩
        · rw [hpan]
          refine ⟨hInv, ?_⟩
          intro t ht
          simp only [SyncCtx.panic, holderTrace, List.mem_singleton] at ht
          rw [ht]
          exact hone
        · have hallA : ∀ h ∈ hs, h = a := by
            rcases hInv with hnil | ⟨hne, hall⟩
            · rw [hnil]
              intro h hh
              exact absurd hh (List.not_mem_nil h)
            · rcases hfacts.2 with h0 | hsp
              · exact absurd h0 hne
              · intro h hh
                rw [hall h hh, hsp, ← hfacts.1]
          constructor
          · rw [hev]
            rw [show heldAfter hs ((⟨c, [], []⟩ : SyncCtx).events ++
                [CloudEvent.assignReq a AssignOutcome.dispatched, CloudEvent.waitResp true]) =
              hs ++ [a] from rfl]
            right
            refine ⟨?_, ?_⟩
            · rw [hnode, ← hfacts.1]
              exact ha
            · intro h hh
              rw [hnode, ← hfacts.1]
              exact all_eq_append_single a hs hallA h hh
          · intro t ht
            rw [hev] at ht
            rw [show holderTrace hs ((⟨c, [], []⟩ : SyncCtx).events ++
                [CloudEvent.assignReq a AssignOutcome.dispatched, CloudEvent.waitResp true]) =
              [hs, hs ++ [a], hs ++ [a]] from rfl] at ht
            simp only [List.mem_cons, List.not_mem_nil, or_false] at ht
            first
            | (rcases ht with rfl | rfl | rfl <;>
                first
                | exact hone
                | exact atMostOne_of_all_eq a _ (all_eq_append_single a hs hallA))
            | (rcases ht with rfl | rfl <;>
                first
                | exact hone
                | exact atMostOne_of_all_eq a _ (all_eq_append_single a hs hallA))
            | (subst ht
               first
               | exact hone
               | exact atMostOne_of_all_eq a _ (all_eq_append_single a hs hallA))
      · -- the delete half runs
        next hdne =>
        have hd : d ≠ "" := hdne
        have hdel := computeOp_with_del c a d hop hd
        have hfilter : hs.filter (fun h => h ≠ d) = [] := by
          rcases hInv with hnil | ⟨hne, hall⟩
          · rw [hnil]
            rfl
          · exact filter_ne_nil_of_all_eq d hs (fun h hh => by rw [hall h hh, ← hdel.1])
        rcases syncDeleteHalf_ff nodes ⟨c, [], []⟩ a d with
          hpan | ⟨out, heq, hobj, hev⟩ | ⟨out, heq, hev⟩ | ⟨k2, ls, heq, hspec, hev⟩
        · rw [hpan]
          refine ⟨hInv, ?_⟩
          intro t ht
          simp only [SyncCtx.panic, holderTrace, List.mem_singleton] at ht
          rw [ht]
          exact hone
        · rw [heq]
          dsimp only
          constructor
          · rw [hev]
            rw [show heldAfter hs ((⟨c, [], []⟩ : SyncCtx).events ++
                [CloudEvent.releaseReq d true]) = hs.filter (fun h => h ≠ d) from rfl]
            rw [hfilter]
            exact Or.inl rfl
          · intro t ht
            rw [hev] at ht
            rw [show holderTrace hs ((⟨c, [], []⟩ : SyncCtx).events ++
                [CloudEvent.releaseReq d true]) =
              [hs, hs.filter (fun h => h ≠ d)] from rfl] at ht
            simp only [List.mem_cons, List.not_mem_nil, or_false] at ht
            first
            | (rcases ht with rfl | rfl <;>
                first
                | exact hone
                | (rw [hfilter]; exact atMostOne_nil))
            | (subst ht
               first
               | exact hone
               | (rw [hfilter]; exact atMostOne_nil))
        · rw [heq]
          dsimp only
          constructor
          · rw [hev]
            rw [show heldAfter hs ((⟨c, [], []⟩ : SyncCtx).events ++
                [CloudEvent.releaseReq d true, CloudEvent.waitResp true]) =
              hs.filter (fun h => h ≠ d) from rfl]
            rw [hfilter]
            exact Or.inl rfl
          · intro t ht
            rw [hev] at ht
            rw [show holderTrace hs ((⟨c, [], []⟩ : SyncCtx).events ++
                [CloudEvent.releaseReq d true, CloudEvent.waitResp true]) =
              [hs, hs.filter (fun h => h ≠ d), hs.filter (fun h => h ≠ d)] from rfl] at ht
            simp only [List.mem_cons, List.not_mem_nil, or_false] at ht
            first
            | (rcases ht with rfl | rfl | rfl <;>
                first
                | exact hone
                | (rw [hfilter]; exact atMostOne_nil))
            | (rcases ht with rfl | rfl <;>
                first
                | exact hone
                | (rw [hfilter]; exact atMostOne_nil))
            | (subst ht
               first
               | exact hone
               | (rw [hfilter]; exact atMostOne_nil))
        · rw [heq]
          dsimp only
          split
          · -- update: the add half follows
            next han =>
            have haspec : a = c.spec.node := by
              rcases hdel.2 with h0 | h1
              · exact absurd h0 han
              · exact h1
            rcases syncAddHalf_ff nodes k2 a with hpan2 | ⟨hev2, hnode2⟩
            · rw [hpan2]
              constructor
              · rw [show (k2.panic).events = k2.events from rfl, hev]
                rw [show heldAfter hs ((⟨c, [], []⟩ : SyncCtx).events ++
                    [CloudEvent.releaseReq d true, CloudEvent.waitResp true]) =
                  hs.filter (fun h => h ≠ d) from rfl]
                rw [hfilter]
                exact Or.inl rfl
              · intro t ht
                rw [show (k2.panic).events = k2.events from rfl, hev] at ht
                rw [show holderTrace hs ((⟨c, [], []⟩ : SyncCtx).events ++
                    [CloudEvent.releaseReq d true, CloudEvent.waitResp true]) =
                  [hs, hs.filter (fun h => h ≠ d), hs.filter (fun h => h ≠ d)] from rfl] at ht
                simp only [List.mem_cons, List.not_mem_nil, or_false] at ht
                first
                | (rcases ht with rfl | rfl | rfl <;>
                    first
                    | exact hone
                    | (rw [hfilter]; exact atMostOne_nil))
                | (rcases ht with rfl | rfl <;>
                    first
                    | exact hone
                    | (rw [hfilter]; exact atMostOne_nil))
                | (subst ht
                   first
                   | exact hone
                   | (rw [hfilter]; exact atMostOne_nil))
            · constructor
              · rw [hev2, hev]
                rw [show heldAfter hs (((⟨c, [], []⟩ : SyncCtx).events ++
                    [CloudEvent.releaseReq d true, CloudEvent.waitResp true]) ++
                    [CloudEvent.assignReq a AssignOutcome.dispatched, CloudEvent.waitResp true]) =
                  hs.filter (fun h => h ≠ d) ++ [a] from rfl]
                simp only [hfilter, List.nil_append]
                right
                refine ⟨?_, ?_⟩
                · rw [hnode2, hspec, ← haspec]
                  exact han
                · intro h hh
                  rw [hnode2, hspec, ← haspec]
                  exact List.mem_singleton.mp hh
              · intro t ht
                rw [hev2, hev] at ht
                rw [show holderTrace hs (((⟨c, [], []⟩ : SyncCtx).events ++
                    [CloudEvent.releaseReq d true, CloudEvent.waitResp true]) ++
                    [CloudEvent.assignReq a AssignOutcome.dispatched, CloudEvent.waitResp true]) =
                  [hs, hs.filter (fun h => h ≠ d), hs.filter (fun h => h ≠ d),
                   hs.filter (fun h => h ≠ d) ++ [a],
                   hs.filter (fun h => h ≠ d) ++ [a]] from rfl] at ht
                simp only [List.mem_cons, List.not_mem_nil, or_false] at ht
                first
                | (rcases ht with rfl | rfl | rfl | rfl | rfl <;>
                    first
                    | exact hone
                    | (rw [hfilter]; exact atMostOne_nil)
                    | (simp only [hfilter, List.nil_append]; exact atMostOne_singleton _))
                | (rcases ht with rfl | rfl | rfl | rfl <;>
                    first
                    | exact hone
                    | (rw [hfilter]; exact atMostOne_nil)
                    | (simp only [hfilter, List.nil_append]; exact atMostOne_singleton _))
                | (rcases ht with rfl | rfl | rfl <;>
                    first
                    | exact hone
                    | (rw [hfilter]; exact atMostOne_nil)
                    | (simp only [hfilter, List.nil_append]; exact atMostOne_singleton _))
                | (rcases ht with rfl | rfl <;>
                    first
                    | exact hone
                    | (rw [hfilter]; exact atMostOne_nil)
                    | (simp only [hfilter, List.nil_append]; exact atMostOne_singleton _))
                | (subst ht
                   first
                   | exact hone
                   | (rw [hfilter]; exact atMostOne_nil)
                   | (simp only [hfilter, List.nil_append]; exact atMostOne_singleton _))
          · -- pure release with empty nodeToAdd: the bottom write ends the sync
            constructor
            · rw [show (((k2.updateStatus ls).finish false)).events = k2.events from rfl, hev]
              rw [show heldAfter hs ((⟨c, [], []⟩ : SyncCtx).events ++
                  [CloudEvent.releaseReq d true, CloudEvent.waitResp true]) =
                hs.filter (fun h => h ≠ d) from rfl]
              rw [hfilter]
              exact Or.inl rfl
            · intro t ht
              rw [show (((k2.updateStatus ls).finish false)).events = k2.events from rfl,
                hev] at ht
              rw [show holderTrace hs ((⟨c, [], []⟩ : SyncCtx).events ++
                  [CloudEvent.releaseReq d true, CloudEvent.waitResp true]) =
                [hs, hs.filter (fun h => h ≠ d), hs.filter (fun h => h ≠ d)] from rfl] at ht
              simp only [List.mem_cons, List.not_mem_nil, or_false] at ht
              first
              | (rcases ht with rfl | rfl | rfl <;>
                  first
                  | exact hone
                  | (rw [hfilter]; exact atMostOne_nil))
              | (rcases ht with rfl | rfl <;>
                  first
                  | exact hone
                  | (rw [hfilter]; exact atMostOne_nil))
              | (subst ht
                 first
                 | exact hone
                 | (rw [hfilter]; exact atMostOne_nil))

theorem reachableFF_holderInv (nodes : List String) (w0 w : World)
    (h0 : HolderInv w0.obj w0.held) (hr : ReachableFF nodes w0 w) :
    HolderInv w.obj w.held := by
  induction hr with
  | refl => exact h0
  | tail hr hstep ih =>
    cases hstep with
    | sync => exact (syncFF_preserves nodes _ _ ih).1
    | patchSpec n =>
      rcases ih with h | ⟨h1, h2⟩
      · exact Or.inl h
      · exact Or.inr ⟨h1, h2⟩
    | markDeleted =>
      rcases ih with h | ⟨h1, h2⟩
      · exact Or.inl h
      · exact Or.inr ⟨h1, h2⟩

theorem syncDeleteHalf_events_shape (nodes : List String) (cloud : FakeCloud) (k : SyncCtx)
    (a d : String) :
    (∃ out, syncDeleteHalf nodes cloud k a d = Sum.inl out ∧
      (out.events = k.events ∨
       (∃ r, out.events = k.events ++ [CloudEvent.releaseReq d r]) ∨
       (∃ w, out.events = k.events ++ [CloudEvent.releaseReq d true, CloudEvent.waitResp w])))
    ∨ (∃ k2 ls, syncDeleteHalf nodes cloud k a d = Sum.inr (k2, ls) ∧
      k2.events = k.events ++ [CloudEvent.releaseReq d true, CloudEvent.waitResp true]) := by
  unfold syncDeleteHalf
  split
  · exact Or.inl ⟨_, rfl, Or.inl rfl⟩
  · dsimp only
    split
    · split
      · exact Or.inl ⟨_, rfl, Or.inr (Or.inl ⟨_, by rfl⟩)⟩
      · exact Or.inl ⟨_, rfl, Or.inr (Or.inl ⟨_, by rfl⟩)⟩
    · next hrel =>
      have hrel1 : fakeRelease cloud = true := by
        revert hrel
        cases fakeRelease cloud <;> simp
      split
      · exact Or.inl ⟨_, rfl, Or.inr (Or.inl ⟨_, by rfl⟩)⟩
      · split
        · exact Or.inl ⟨_, rfl, Or.inr (Or.inr ⟨_, by
            simp only [SyncCtx.updateStatus, SyncCtx.updateObject, SyncCtx.finish,
              hrel1, List.append_assoc]
            rfl⟩)⟩
        · split
          · exact Or.inl ⟨_, rfl, Or.inr (Or.inr ⟨_, by
              simp only [SyncCtx.updateStatus, SyncCtx.finish, hrel1, List.append_assoc]
              rfl⟩)⟩
          · next hrem hwait =>
            have hw : fakeWait cloud = true := by
              revert hwait
              cases fakeWait cloud <;> simp
            split
            · refine Or.inr ⟨_, _, rfl, ?_⟩
              simp [SyncCtx.updateStatus, hrel1, hw]
            · refine Or.inr ⟨_, _, rfl, ?_⟩
              simp [SyncCtx.updateStatus, hrel1, hw]

theorem syncAddHalf_events_shape (nodes : List String) (cloud : FakeCloud) (k : SyncCtx)
    (a : String) :
    (syncAddHalf nodes cloud k a).events = k.events ∨
    (∃ o, (syncAddHalf nodes cloud k a).events = k.events ++ [CloudEvent.assignReq a o]) ∨
    (∃ o w, (syncAddHalf nodes cloud k a).events =
      k.events ++ [CloudEvent.assignReq a o, CloudEvent.waitResp w]) := by
  unfold syncAddHalf
  split
  · exact Or.inl rfl
  · dsimp only
    rcases hres : fakeAssign cloud
    · simp only [hres]
      split <;> split <;>
        exact Or.inr (Or.inr ⟨_, _, by
          simp only [SyncCtx.updateStatus, SyncCtx.updateObject, SyncCtx.finish,
            List.append_assoc]
          rfl⟩)
    · simp only [hres]
      exact Or.inr (Or.inl ⟨_, by rfl⟩)
    · simp only [hres]
      exact Or.inr (Or.inl ⟨_, by rfl⟩)

theorem checker_after_release (d : String) (tail : List CloudEvent) :
    assignsPrecededByRelease d
      (CloudEvent.releaseReq d true :: CloudEvent.waitResp true :: tail) = true := by
  unfold assignsPrecededByRelease
  show assignsAfterReleaseOf d (false || ((d == d) && true)) _ _ = true
  rw [beq_self_eq_true]
  show assignsAfterReleaseOf d true (false || (true && true)) tail = true
  exact assignsAfter_true_true d tail

theorem sync_release_before_assign (nodes : List String) (cloud : FakeCloud)
    (c : CloudPrivateIPConfig) (a d : String)
    (hop : computeOp c = some (a, d)) (ha : a ≠ "") (hd : d ≠ "") :
    assignsPrecededByRelease d (syncHandler nodes cloud c).events = true := by
  unfold syncHandler
  rw [hop]
  dsimp only
  rw [if_neg (fun h => hd h.2), if_neg hd]
  rcases syncDeleteHalf_events_shape nodes cloud ⟨c, [], []⟩ a d with
    ⟨out, heq, hsh⟩ | ⟨k2, ls, heq, hev⟩
  · rw [heq]
    dsimp only
    rcases hsh with he | ⟨r, he⟩ | ⟨w, he⟩ <;> rw [he] <;> rfl
  · rw [heq]
    dsimp only
    split
    · rcases syncAddHalf_events_shape nodes cloud k2 a with he | ⟨o, he⟩ | ⟨o, w, he⟩ <;>
        rw [he, hev] <;> exact checker_after_release d _
    · next hna => exact absurd ha hna

/-- C1 (amended): (a) for every update sync — `computeOp` yields a non-empty
assign node AND a non-empty release node — and for ANY mock-error flags of the
fake cloud, every cloud assign request in the sync's call sequence comes only
after a `ReleasePrivateIP` of the old node that returned success together with
a successful `WaitForResponse`; (b) along FAULT-FREE runs of the one-key step
relation started in a world satisfying the holder invariant, the IP is granted
to at most one node in every reachable world and in every intra-sync cloud
state of the next sync. The original claim's "every reachable state" (with
faults allowed) is false — see the counterexample. -/
theorem C1_release_before_assign_single_holder :
    (∀ (nodes : List String) (cloud : FakeCloud) (c : CloudPrivateIPConfig) (a d : String),
      computeOp c = some (a, d) → a ≠ "" → d ≠ "" →
      assignsPrecededByRelease d (syncHandler nodes cloud c).events = true) ∧
    (∀ (nodes : List String) (w0 w : World), HolderInv w0.obj w0.held →
      ReachableFF nodes w0 w →
      AtMostOne w.held ∧
      ∀ t ∈ holderTrace w.held (syncHandler nodes ffCloud w.obj).events, AtMostOne t) := by
  constructor
  · exact sync_release_before_assign
  · intro nodes w0 w h0 hr
    have hinv := reachableFF_holderInv nodes w0 w h0 hr
    exact ⟨holderInv_atMostOne hinv, (syncFF_preserves nodes w.obj w.held hinv).2⟩

/-- Witness for the amended C1: part (a) at the patched steady object (update
`nodeA → nodeB`) against the fault-free cloud; part (b) at the initial world. -/
theorem C1_release_before_assign_single_holder_witness :
    assignsPrecededByRelease "nodeA"
      (syncHandler testNodes ffCloud steadyPatchedCPIC).events = true ∧
    (AtMostOne initialWorld.held ∧
      ∀ t ∈ holderTrace initialWorld.held
        (syncHandler testNodes ffCloud initialWorld.obj).events, AtMostOne t) :=
  ⟨C1_release_before_assign_single_holder.1 testNodes ffCloud steadyPatchedCPIC "nodeB" "nodeA"
      (by decide) (by decide) (by decide),
   C1_release_before_assign_single_holder.2 testNodes initialWorld initialWorld
      (Or.inl rfl) ReachableFF.refl⟩

/-- C1 counterexample: under the arbitrary-fault step relation the IP can be
granted to two nodes at once. A create sync whose `WaitForResponse` fails
persists `status.node = ""` although the assign had been dispatched to `nodeA`;
after the consumer patches `spec.node = nodeB`, the next (fault-free) sync
computes an assign-only operation and assigns to `nodeB` WITHOUT any release
of `nodeA`, reaching the world whose granted-set is `["nodeA", "nodeB"]`. -/
theorem C1_two_holders_counterexample :
    Reachable testNodes initialWorld c1WorldDouble ∧
    c1WorldDouble.held = ["nodeA", "nodeB"] ∧ ("nodeA" : String) ≠ "nodeB" := by
  refine ⟨?_, by decide, by decide⟩
  exact Reachable.tail
    (Reachable.tail
      (Reachable.tail Reachable.refl (Step.sync waitFailCloud initialWorld))
      (Step.patchSpec "nodeB" c1WorldAfterWaitFail))
    (Step.sync ffCloud c1WorldPatched)
